import Mathlib

/-!
Verification of the trip-tracker REST backend (`app/routes/trip_routes.js`
together with the Mongoose trip schema).

The embedding is shallow and executable:

* a client-supplied JSON object (`req.body.trip`) is an association list of
  string keys to scalar JSON values (`Obj`);
* a stored trip document (`TripDoc`) keeps its scalar schema fields as such an
  association list and its `users` attendee array as a list of user-id strings,
  mirroring the schema in `app/models/trip.js` where `users` is always an array
  of ObjectId references;
* the persisted collection is an association list from document ids to
  documents (`Store`);
* each route handler becomes a function from the store and the request data to
  `Except RouteError` of the updated store (and response data), mirroring the
  promise chain of the Express handler: a thrown error or rejected promise is
  the `.error` branch handed to `.catch(next)`.

The helper modules `lib/custom_errors.js` (`handle404`, `requireOwnership`) and
`lib/remove_blank_fields.js` (`removeBlanks`) are collaborators of the route
file; their behaviour is modelled from the specification, as marked on the
individual definitions.
-/

namespace TripTracker

/-- Scalar JSON values that can appear in a client-supplied trip object:
`null`, booleans, numbers, and strings. -/
inductive JValue where
  | vNull : JValue
  | vBool : Bool → JValue
  | vNum : Int → JValue
  | vStr : String → JValue
  deriving DecidableEq

/-- A JavaScript object with scalar values, as an association list.
JavaScript objects have unique keys; lemmas that need uniqueness take it as a
`Nodup` hypothesis on the key list. -/
abbrev Obj := List (String × JValue)

/-- Property lookup `o[k]`: the value at the first occurrence of key `k`. -/
def getField : Obj → String → Option JValue
  | [], _ => none
  | (k', v) :: rest, k => if k' = k then some v else getField rest k

/-- Property assignment `o[k] = v`: overwrite the first occurrence of `k`,
or append the pair when the key is absent. -/
def setField : Obj → String → JValue → Obj
  | [], k, v => [(k, v)]
  | (k', v') :: rest, k, v =>
      if k' = k then (k, v) :: rest else (k', v') :: setField rest k v

/-- Property deletion `delete o[k]` (route line 114 does `delete req.body.trip.owner`). -/
def removeField (o : Obj) (k : String) : Obj :=
  o.filter (fun kv => kv.1 ≠ k)

/-- Modelled from the spec: `lib/remove_blank_fields.js` (the `removeBlanks`
middleware) is not part of the route file. Per the spec, `stripBlankFields`
"removes keys whose value is an empty string (keeps explicit null / non-string
falsy values untouched)"; the route file documents it the same way:
`{ event: { title: '', text: 'foo' } } -> { event: { text: 'foo' } }`. -/
def removeBlanks (o : Obj) : Obj :=
  o.filter (fun kv => kv.2 ≠ JValue.vStr "")

/-- The scalar fields declared by the trip schema (`app/models/trip.js`):
`date`, `country`, `city`, `description` plus the `owner` reference. Mongoose
runs in strict mode, so writes only persist keys declared by the schema. -/
def scalarSchemaKeys : List String :=
  ["date", "country", "city", "description", "owner"]

/-- A stored trip document: the scalar schema fields (including `owner`) as an
object, and the `users` attendee array as a list of user-id strings (the
schema types `users` as an array of ObjectId references, so it is always an
array in the store). -/
structure TripDoc where
  fields : Obj
  users : List String
  deriving DecidableEq

/-- `Trip.create(body)`: persist the schema-declared scalar fields of the body;
`users` is an array field with no value in a scalar body, so it takes the
Mongoose array default `[]`. -/
def tripCreate (t : Obj) : TripDoc :=
  { fields := t.filter (fun kv => kv.1 ∈ scalarSchemaKeys), users := [] }

/-- Merge a patch object into an object: set each key of the patch in order
(Mongoose `updateOne` treats a bare object as `$set` of its keys). -/
def applyPatch (d : Obj) (p : Obj) : Obj :=
  p.foldl (fun acc kv => setField acc kv.1 kv.2) d

/-- `trip.updateOne(patch)`: `$set` the schema-declared scalar keys present in
the patch; keys absent from the patch are untouched. -/
def updateOne (d : TripDoc) (p : Obj) : TripDoc :=
  { d with fields := applyPatch d.fields (p.filter (fun kv => kv.1 ∈ scalarSchemaKeys)) }

/-- `$addToSet: { users: u }`: append `u` to the `users` array unless it is
already present. -/
def addAttendee (d : TripDoc) (u : String) : TripDoc :=
  { d with users := if u ∈ d.users then d.users else d.users ++ [u] }

/-- `$pull: { users: u }`: remove every occurrence of `u` from the `users`
array; pulling an absent value leaves the array as it was. -/
def removeAttendee (d : TripDoc) (u : String) : TripDoc :=
  { d with users := d.users.filter (fun x => x ≠ u) }

/-- The persisted trip collection: an association list from document ids to
documents. -/
abbrev Store := List (Nat × TripDoc)

/-- `Trip.findById(id)`: the document at the first occurrence of `id`, absent
as a first-class `none`. -/
def findById : Store → Nat → Option TripDoc
  | [], _ => none
  | (j, d) :: rest, i => if j = i then some d else findById rest i

/-- Replace the document stored at `i`. -/
def storeSet : Store → Nat → TripDoc → Store
  | [], _, _ => []
  | (j, e) :: rest, i, d =>
      if j = i then (i, d) :: storeSet rest i d else (j, e) :: storeSet rest i d

/-- `trip.deleteOne()` outcome on the collection: remove the document at `i`. -/
def storeRemove (s : Store) (i : Nat) : Store :=
  s.filter (fun e => e.1 ≠ i)

/-- The error taxonomy of the route layer (spec section 7): `notFound` maps to
404, `forbidden` to 403, `validationFailed` to 422, and `serverFailure` covers
generic thrown errors and storage failures (500). -/
inductive RouteError where
  | notFound : RouteError
  | forbidden : RouteError
  | validationFailed : RouteError
  | serverFailure : RouteError
  deriving DecidableEq

/-- Modelled from the spec: `handle404` lives in `lib/custom_errors.js`, not in
the route file. Per the spec, `requireFound` / `handle404` fails with
`NotFoundError` when the lookup outcome is absent and otherwise passes the
found document through unchanged. -/
def handle404 : Option TripDoc → Except RouteError TripDoc
  | none => .error .notFound
  | some d => .ok d

/-- Modelled from the spec: `requireOwnership` lives in `lib/custom_errors.js`,
not in the route file. Per the spec, it fails with `ForbiddenError` unless
`trip.owner == requesterId`, and has no side effects. -/
def requireOwnership (userId : String) (d : TripDoc) : Except RouteError Unit :=
  if getField d.fields "owner" = some (.vStr userId) then .ok () else .error .forbidden

/-- POST `/trips` (route lines 94 to 107). The handler first executes
`req.body.trip.owner = req.user.id`: when the body carries no `trip` object
this dereference throws a `TypeError` before any repository call, surfacing as
a generic server error; otherwise the owner key is overwritten with the
requester id and the document is created. Responds 201 with the new trip. -/
def postTrips (store : Store) (newId : Nat) (userId : String) (body : Option Obj) :
    Except RouteError (Store × TripDoc) :=
  match body with
  | none => .error .serverFailure
  | some t =>
      let t1 := setField t "owner" (.vStr userId)
      let doc := tripCreate t1
      .ok ((newId, doc) :: store, doc)

/-- PATCH `/trips/:id` (route lines 111 to 130). The `removeBlanks` middleware
first strips blank-string fields from the body; the handler then executes
`delete req.body.trip.owner`, which throws when the body carries no `trip`
object, before `findById`; then `handle404`, then `requireOwnership`, and only
then `trip.updateOne(req.body.trip)`, whose promise is returned, so a failed
update write propagates as an error. -/
def patchTrips (store : Store) (tripId : Nat) (userId : String) (body : Option Obj)
    (updateFails : Bool) : Except RouteError Store :=
  match body with
  | none => .error .serverFailure
  | some t =>
      let t1 := removeField (removeBlanks t) "owner"
      match handle404 (findById store tripId) with
      | .error e => .error e
      | .ok trip =>
          match requireOwnership userId trip with
          | .error e => .error e
          | .ok _ =>
              if updateFails then .error .serverFailure
              else .ok (storeSet store tripId (updateOne trip t1))

/-- PATCH `/trips/rsvp/:id` (route lines 132 to 141):
`Trip.findByIdAndUpdate(id, \x7b $addToSet: \x7b users: req.user.id \x7d \x7d)`
then `handle404`. No ownership check: any authenticated requester adds their
own id to the attendee set. -/
def rsvpTrips (store : Store) (tripId : Nat) (userId : String) :
    Except RouteError Store :=
  match handle404 ((findById store tripId).map (fun d => addAttendee d userId)) with
  | .error e => .error e
  | .ok d' => .ok (storeSet store tripId d')

/-- PATCH `/trips/unrsvp/:id` (route lines 143 to 152):
`Trip.findByIdAndUpdate(id, \x7b $pull: \x7b users: req.user.id \x7d \x7d)`
then `handle404`. No ownership check. -/
def unrsvpTrips (store : Store) (tripId : Nat) (userId : String) :
    Except RouteError Store :=
  match handle404 ((findById store tripId).map (fun d => removeAttendee d userId)) with
  | .error e => .error e
  | .ok d' => .ok (storeSet store tripId d')

/-- DELETE `/trips/:id` (route lines 156 to 169): `findById`, `handle404`,
`requireOwnership`, then `trip.deleteOne()`. The handler calls `deleteOne()`
without returning its promise, so the following `.then` sends 204 regardless
of the outcome of the deletion write; `deleteFails` records that outcome: when
the write fails the store is unchanged but the response is still 204. -/
def deleteTrips (store : Store) (tripId : Nat) (userId : String) (deleteFails : Bool) :
    Except RouteError (Store × Nat) :=
  match handle404 (findById store tripId) with
  | .error e => .error e
  | .ok trip =>
      match requireOwnership userId trip with
      | .error e => .error e
      | .ok _ =>
          .ok ((if deleteFails then store else storeRemove store tripId), 204)

/-! Lemmas about object field lookup and update. -/

theorem getField_setField_self (o : Obj) (k : String) (v : JValue) :
    getField (setField o k v) k = some v := by
  induction o with
  | nil => simp [setField, getField]
  | cons hd tl ih =>
      obtain ⟨k', v'⟩ := hd
      by_cases h : k' = k
      · simp [setField, h, getField]
      · simp [setField, h, getField, ih]

theorem getField_setField_ne (o : Obj) (k k' : String) (v : JValue) (h : k' ≠ k) :
    getField (setField o k' v) k = getField o k := by
  induction o with
  | nil => simp [setField, getField, h]
  | cons hd tl ih =>
      obtain ⟨a, b⟩ := hd
      by_cases ha : a = k'
      · subst ha
        simp [setField, getField, h]
      · simp [setField, ha, getField, ih]

theorem setField_eq_of_getField (o : Obj) (k : String) (v : JValue)
    (h : getField o k = some v) : setField o k v = o := by
  induction o with
  | nil => simp [getField] at h
  | cons hd tl ih =>
      obtain ⟨a, b⟩ := hd
      by_cases ha : a = k
      · subst ha
        simp [getField] at h
        simp [setField, h]
      · simp [getField, ha] at h
        simp [setField, ha, ih h]

theorem getField_eq_none_of_not_mem (o : Obj) (k : String)
    (h : k ∉ o.map Prod.fst) : getField o k = none := by
  induction o with
  | nil => simp [getField]
  | cons hd tl ih =>
      obtain ⟨a, b⟩ := hd
      have h1 : ¬ a = k := by
        intro hc
        exact h (by simp [hc])
      have h2 : k ∉ tl.map Prod.fst := by
        intro hc
        exact h (by simp [hc])
      simp [getField, h1, ih h2]

theorem getField_filter_none (p : String × JValue → Bool) (o : Obj) (k : String)
    (h : getField o k = none) : getField (o.filter p) k = none := by
  induction o with
  | nil => simp [getField]
  | cons hd tl ih =>
      obtain ⟨a, b⟩ := hd
      by_cases ha : a = k
      · simp [getField, ha] at h
      · simp [getField, ha] at h
        by_cases hp : p (a, b)
        · simp [List.filter, hp, getField, ha, ih h]
        · simp [List.filter, hp, ih h]

theorem getField_filterKey (q : String → Bool) (o : Obj) (k : String)
    (hq : q k = true) :
    getField (o.filter (fun kv => q kv.1)) k = getField o k := by
  induction o with
  | nil => simp [getField]
  | cons hd tl ih =>
      obtain ⟨a, b⟩ := hd
      by_cases ha : a = k
      · subst ha
        simp [List.filter, hq, getField]
      · by_cases hp : q a
        · simp [List.filter, hp, getField, ha, ih]
        · simp [List.filter, hp, getField, ha, ih]

theorem getField_removeBlanks_some (o : Obj) (k : String) (v : JValue)
    (h : getField o k = some v) (hv : v ≠ JValue.vStr "") :
    getField (removeBlanks o) k = some v := by
  induction o with
  | nil => simp [getField] at h
  | cons hd tl ih =>
      obtain ⟨a, b⟩ := hd
      by_cases ha : a = k
      · subst ha
        simp [getField] at h
        subst h
        simp [removeBlanks, List.filter, hv, getField]
      · simp [getField, ha] at h
        by_cases hb : b = JValue.vStr ""
        · simpa [removeBlanks, List.filter, hb] using ih h
        · simpa [removeBlanks, List.filter, hb, getField, ha] using ih h

theorem getField_removeBlanks_blank (o : Obj) (k : String)
    (hnd : (o.map Prod.fst).Nodup) (h : getField o k = some (JValue.vStr "")) :
    getField (removeBlanks o) k = none := by
  induction o with
  | nil => simp [getField] at h
  | cons hd tl ih =>
      obtain ⟨a, b⟩ := hd
      simp at hnd
      by_cases ha : a = k
      · subst ha
        simp [getField] at h
        subst h
        have htl : getField tl a = none :=
          getField_eq_none_of_not_mem tl a (by simpa using hnd.1)
        simpa [removeBlanks, List.filter] using
          getField_filter_none _ tl a htl
      · simp [getField, ha] at h
        by_cases hb : b = JValue.vStr ""
        · simpa [removeBlanks, List.filter, hb] using ih hnd.2 h
        · simpa [removeBlanks, List.filter, hb, getField, ha] using ih hnd.2 h

theorem getField_applyPatch_none (p : Obj) (d : Obj) (k : String)
    (h : getField p k = none) : getField (applyPatch d p) k = getField d k := by
  induction p generalizing d with
  | nil => simp [applyPatch]
  | cons hd tl ih =>
      obtain ⟨a, b⟩ := hd
      by_cases ha : a = k
      · simp [getField, ha] at h
      · simp [getField, ha] at h
        have := ih (setField d a b) h
        simpa [applyPatch, List.foldl, getField_setField_ne d k a b ha] using this

theorem getField_applyPatch_some (p : Obj) (d : Obj) (k : String) (v : JValue)
    (hnd : (p.map Prod.fst).Nodup) (h : getField p k = some v) :
    getField (applyPatch d p) k = some v := by
  induction p generalizing d with
  | nil => simp [getField] at h
  | cons hd tl ih =>
      obtain ⟨a, b⟩ := hd
      simp at hnd
      by_cases ha : a = k
      · subst ha
        simp [getField] at h
        subst h
        have htl : getField tl a = none :=
          getField_eq_none_of_not_mem tl a (by simpa using hnd.1)
        have := getField_applyPatch_none tl (setField d a b) a htl
        simpa [applyPatch, List.foldl, getField_setField_self] using this
      · simp [getField, ha] at h
        simpa [applyPatch, List.foldl] using ih (setField d a b) hnd.2 h

theorem keys_nodup_filter (o : Obj) (p : String × JValue → Bool)
    (h : (o.map Prod.fst).Nodup) : ((o.filter p).map Prod.fst).Nodup :=
  h.sublist ((o.filter_sublist).map Prod.fst)

theorem getField_removeField_self (o : Obj) (k : String) :
    getField (removeField o k) k = none := by
  induction o with
  | nil => simp [removeField, getField]
  | cons hd tl ih =>
      obtain ⟨a, b⟩ := hd
      by_cases ha : a = k
      · simpa [removeField, List.filter, ha] using ih
      · simpa [removeField, List.filter, ha, getField] using ih

theorem getField_updateOne_none (d : TripDoc) (p : Obj) (k : String)
    (h : getField p k = none) :
    getField (updateOne d p).fields k = getField d.fields k := by
  have h2 : getField (p.filter (fun kv => kv.1 ∈ scalarSchemaKeys)) k = none :=
    getField_filter_none _ p k h
  simpa [updateOne] using
    getField_applyPatch_none (p.filter (fun kv => kv.1 ∈ scalarSchemaKeys)) d.fields k h2

theorem getField_updateOne_some (d : TripDoc) (p : Obj) (k : String) (v : JValue)
    (hnd : (p.map Prod.fst).Nodup) (h : getField p k = some v)
    (hk : k ∈ scalarSchemaKeys) :
    getField (updateOne d p).fields k = some v := by
  have h2 : getField (p.filter (fun kv => kv.1 ∈ scalarSchemaKeys)) k = some v := by
    have heq := getField_filterKey (fun s => decide (s ∈ scalarSchemaKeys)) p k
      (by simpa using hk)
    exact heq.trans h
  have hnd2 : ((p.filter (fun kv => kv.1 ∈ scalarSchemaKeys)).map Prod.fst).Nodup :=
    keys_nodup_filter p _ hnd
  simpa [updateOne] using
    getField_applyPatch_some (p.filter (fun kv => kv.1 ∈ scalarSchemaKeys)) d.fields k v hnd2 h2

/-! Lemmas about the store. -/

theorem findById_storeSet_found (s : Store) (i : Nat) (d d' : TripDoc)
    (h : findById s i = some d) : findById (storeSet s i d') i = some d' := by
  induction s with
  | nil => simp [findById] at h
  | cons hd tl ih =>
      obtain ⟨j, e⟩ := hd
      by_cases hj : j = i
      · subst hj
        simp [storeSet, findById]
      · simp [findById, hj] at h
        simp [storeSet, findById, hj, ih h]

/-! Claim theorems. -/

/-- Claim C1: for every create request (POST `/trips`) by an authenticated
requester, the creation succeeds and the owner of the resulting trip equals
the requester's user id, regardless of any owner value supplied in the request
body. -/
theorem create_forces_owner_to_requester (store : Store) (newId : Nat)
    (userId : String) (t : Obj) :
    ∃ st d, postTrips store newId userId (some t) = .ok (st, d) ∧
      getField d.fields "owner" = some (JValue.vStr userId) := by
  refine ⟨(newId, tripCreate (setField t "owner" (JValue.vStr userId))) :: store,
    tripCreate (setField t "owner" (JValue.vStr userId)), rfl, ?_⟩
  have h1 : getField (setField t "owner" (JValue.vStr userId)) "owner" =
      some (JValue.vStr userId) := getField_setField_self t "owner" _
  have h2 := getField_filterKey (fun s => decide (s ∈ scalarSchemaKeys))
    (setField t "owner" (JValue.vStr userId)) "owner" (by simp [scalarSchemaKeys])
  exact h2.trans h1

/-- Claim C3: for every update or delete request whose target id resolves to no
stored trip, the response is not-found, for every requester (the existence
check is evaluated before the ownership check). -/
theorem update_delete_absent_not_found (store : Store) (tripId : Nat)
    (userId : String) (t : Obj) (uf df : Bool)
    (h : findById store tripId = none) :
    patchTrips store tripId userId (some t) uf = .error .notFound ∧
    deleteTrips store tripId userId df = .error .notFound := by
  constructor
  · simp [patchTrips, h, handle404]
  · simp [deleteTrips, h, handle404]

theorem update_delete_absent_not_found_witness :
    patchTrips [] 7 "bob" (some [("city", JValue.vStr "Oslo")]) false = .error .notFound ∧
    deleteTrips [] 7 "bob" false = .error .notFound :=
  update_delete_absent_not_found [] 7 "bob" [("city", JValue.vStr "Oslo")] false false rfl

/-- Claim C5 evaluation: when the target trip exists and is owned by the
requester but the deletion write fails, DELETE `/trips/:id` still responds 204
and the trip is still stored, because the handler never awaits the promise of
`trip.deleteOne()`; the route's own comment ("send back 204 ... if the
deletion succeeded") and the spec say the failure should surface as an
error. -/
theorem delete_write_failure_still_204 :
    deleteTrips [(1, ⟨[("owner", JValue.vStr "alice")], []⟩)] 1 "alice" true =
      .ok ([(1, ⟨[("owner", JValue.vStr "alice")], []⟩)], 204) := by
  rfl

/-- Claim C10: for every POST `/trips` or PATCH `/trips/:id` request whose body
does not contain a trip object, the handler fails with a generic server error
(the thrown `TypeError` from dereferencing the missing object), before any
repository read or write, for every store and target id. -/
theorem missing_trip_body_errors_before_store (store : Store) (newId tripId : Nat)
    (userId : String) (updateFails : Bool) :
    postTrips store newId userId none = .error .serverFailure ∧
    patchTrips store tripId userId none updateFails = .error .serverFailure :=
  ⟨rfl, rfl⟩

/-- Claim C2: for every update (PATCH `/trips/:id`) or delete (DELETE
`/trips/:id`) request where the target trip exists but its owner is not the
requester, the response is the forbidden error, and no write is issued to the
repository (no updated store is produced). -/
theorem update_delete_nonowner_forbidden (store : Store) (tripId : Nat)
    (userId : String) (t : Obj) (uf df : Bool) (d : TripDoc)
    (hfind : findById store tripId = some d)
    (hown : getField d.fields "owner" ≠ some (JValue.vStr userId)) :
    patchTrips store tripId userId (some t) uf = .error .forbidden ∧
    deleteTrips store tripId userId df = .error .forbidden := by
  constructor
  · simp [patchTrips, hfind, handle404, requireOwnership, hown]
  · simp [deleteTrips, hfind, handle404, requireOwnership, hown]

theorem update_delete_nonowner_forbidden_witness :
    patchTrips [(1, ⟨[("owner", JValue.vStr "alice")], []⟩)] 1 "bob"
      (some [("city", JValue.vStr "Oslo")]) false = .error .forbidden ∧
    deleteTrips [(1, ⟨[("owner", JValue.vStr "alice")], []⟩)] 1 "bob" false =
      .error .forbidden :=
  update_delete_nonowner_forbidden [(1, ⟨[("owner", JValue.vStr "alice")], []⟩)] 1
    "bob" [("city", JValue.vStr "Oslo")] false false
    ⟨[("owner", JValue.vStr "alice")], []⟩ rfl (by decide)

/-- Claim C4: for every trip and every successful update request, the trip's
owner field is unchanged by the update: the owner key is stripped from the
client patch before the merge is applied. -/
theorem update_preserves_owner (store : Store) (tripId : Nat) (userId : String)
    (t : Obj) (uf : Bool) (st' : Store) (d d' : TripDoc)
    (hrun : patchTrips store tripId userId (some t) uf = .ok st')
    (hd : findById store tripId = some d)
    (hd' : findById st' tripId = some d') :
    getField d'.fields "owner" = getField d.fields "owner" := by
  by_cases hcond : getField d.fields "owner" = some (JValue.vStr userId)
  · cases uf with
    | true => simp [patchTrips, hd, handle404, requireOwnership, hcond] at hrun
    | false =>
        simp [patchTrips, hd, handle404, requireOwnership, hcond] at hrun
        have hf : findById st' tripId =
            some (updateOne d (removeField (removeBlanks t) "owner")) := by
          rw [← hrun]
          exact findById_storeSet_found store tripId d _ hd
        rw [hd'] at hf
        have hnone : getField (removeField (removeBlanks t) "owner") "owner" = none :=
          getField_removeField_self (removeBlanks t) "owner"
        rw [Option.some_inj.mp hf]
        exact getField_updateOne_none d (removeField (removeBlanks t) "owner") "owner" hnone
  · simp [patchTrips, hd, handle404, requireOwnership, hcond] at hrun

theorem update_preserves_owner_witness :
    getField (⟨[("owner", JValue.vStr "alice"), ("city", JValue.vStr "Paris")],
        []⟩ : TripDoc).fields "owner" =
      getField (⟨[("owner", JValue.vStr "alice")], []⟩ : TripDoc).fields "owner" :=
  update_preserves_owner [(1, ⟨[("owner", JValue.vStr "alice")], []⟩)] 1 "alice"
    [("owner", JValue.vStr "eve"), ("city", JValue.vStr "Paris")] false
    [(1, ⟨[("owner", JValue.vStr "alice"), ("city", JValue.vStr "Paris")], []⟩)]
    ⟨[("owner", JValue.vStr "alice")], []⟩
    ⟨[("owner", JValue.vStr "alice"), ("city", JValue.vStr "Paris")], []⟩
    rfl rfl rfl

/-- Claim C9: for every trip and every successful partial update, every field
of the trip absent from the client patch keeps its previous stored value: only
the fields present in the patch are changed. -/
theorem update_frame_absent_fields_unchanged (store : Store) (tripId : Nat)
    (userId : String) (t : Obj) (uf : Bool) (st' : Store) (d d' : TripDoc)
    (k : String)
    (hrun : patchTrips store tripId userId (some t) uf = .ok st')
    (hd : findById store tripId = some d)
    (hd' : findById st' tripId = some d')
    (habsent : getField t k = none) :
    getField d'.fields k = getField d.fields k := by
  by_cases hcond : getField d.fields "owner" = some (JValue.vStr userId)
  · cases uf with
    | true => simp [patchTrips, hd, handle404, requireOwnership, hcond] at hrun
    | false =>
        simp [patchTrips, hd, handle404, requireOwnership, hcond] at hrun
        have hf : findById st' tripId =
            some (updateOne d (removeField (removeBlanks t) "owner")) := by
          rw [← hrun]
          exact findById_storeSet_found store tripId d _ hd
        rw [hd'] at hf
        have h1 : getField (removeBlanks t) k = none :=
          getField_filter_none _ t k habsent
        have h2 : getField (removeField (removeBlanks t) "owner") k = none :=
          getField_filter_none _ (removeBlanks t) k h1
        rw [Option.some_inj.mp hf]
        exact getField_updateOne_none d (removeField (removeBlanks t) "owner") k h2
  · simp [patchTrips, hd, handle404, requireOwnership, hcond] at hrun

theorem update_frame_absent_fields_unchanged_witness :
    getField (⟨[("owner", JValue.vStr "alice"), ("city", JValue.vStr "Rome"),
        ("description", JValue.vStr "fun")], []⟩ : TripDoc).fields "city" =
      getField (⟨[("owner", JValue.vStr "alice"), ("city", JValue.vStr "Rome")],
        []⟩ : TripDoc).fields "city" :=
  update_frame_absent_fields_unchanged
    [(1, ⟨[("owner", JValue.vStr "alice"), ("city", JValue.vStr "Rome")], []⟩)] 1
    "alice" [("description", JValue.vStr "fun")] false
    [(1, ⟨[("owner", JValue.vStr "alice"), ("city", JValue.vStr "Rome"),
      ("description", JValue.vStr "fun")], []⟩)]
    ⟨[("owner", JValue.vStr "alice"), ("city", JValue.vStr "Rome")], []⟩
    ⟨[("owner", JValue.vStr "alice"), ("city", JValue.vStr "Rome"),
      ("description", JValue.vStr "fun")], []⟩
    "city" rfl rfl rfl rfl

/-- Claim C6: joining a trip twice with the same requester (PATCH
`/trips/rsvp/:id`) leaves the attendee set with exactly one occurrence of that
requester's id; the second add is a no-op on the document. -/
theorem rsvp_twice_idempotent (store : Store) (tripId : Nat) (userId : String)
    (d : TripDoc) (hd : findById store tripId = some d)
    (hset : d.users.count userId ≤ 1) :
    ∃ st' st'' d',
      rsvpTrips store tripId userId = .ok st' ∧
      findById st' tripId = some d' ∧
      rsvpTrips st' tripId userId = .ok st'' ∧
      findById st'' tripId = some d' ∧
      d'.users.count userId = 1 := by
  have hagain : addAttendee (addAttendee d userId) userId = addAttendee d userId := by
    by_cases hmem : userId ∈ d.users
    · unfold addAttendee
      rw [if_pos hmem]
      rw [if_pos hmem]
    · unfold addAttendee
      rw [if_neg hmem]
      have hmem2 : userId ∈ ({ d with users := d.users ++ [userId] } : TripDoc).users := by
        simp
      rw [if_pos hmem2]
  have hcount : (addAttendee d userId).users.count userId = 1 := by
    by_cases hmem : userId ∈ d.users
    · have h1 : 1 ≤ d.users.count userId := List.one_le_count_iff.mpr hmem
      have : d.users.count userId = 1 := le_antisymm hset h1
      simp [addAttendee, hmem, this]
    · have h0 : d.users.count userId = 0 := List.count_eq_zero.mpr hmem
      simp [addAttendee, hmem, List.count_append, h0]
  have hst1 : rsvpTrips store tripId userId =
      .ok (storeSet store tripId (addAttendee d userId)) := by
    simp [rsvpTrips, hd, handle404]
  have hf1 : findById (storeSet store tripId (addAttendee d userId)) tripId =
      some (addAttendee d userId) := findById_storeSet_found store tripId d _ hd
  have hst2 : rsvpTrips (storeSet store tripId (addAttendee d userId)) tripId userId =
      .ok (storeSet (storeSet store tripId (addAttendee d userId)) tripId
        (addAttendee d userId)) := by
    simp [rsvpTrips, hf1, handle404, hagain]
  have hf2 : findById (storeSet (storeSet store tripId (addAttendee d userId)) tripId
      (addAttendee d userId)) tripId = some (addAttendee d userId) :=
    findById_storeSet_found _ tripId (addAttendee d userId) _ hf1
  exact ⟨_, _, addAttendee d userId, hst1, hf1, hst2, hf2, hcount⟩

theorem rsvp_twice_idempotent_witness :
    ∃ st' st'' d',
      rsvpTrips [(1, ⟨[("owner", JValue.vStr "alice")], []⟩)] 1 "bob" = .ok st' ∧
      findById st' 1 = some d' ∧
      rsvpTrips st' 1 "bob" = .ok st'' ∧
      findById st'' 1 = some d' ∧
      d'.users.count "bob" = 1 :=
  rsvp_twice_idempotent [(1, ⟨[("owner", JValue.vStr "alice")], []⟩)] 1 "bob"
    ⟨[("owner", JValue.vStr "alice")], []⟩ rfl (by decide)

/-- Claim C7: leaving a trip (PATCH `/trips/unrsvp/:id`) with a requester id
not present in the attendee set succeeds and leaves the stored document, in
particular its attendee set, unchanged. -/
theorem unrsvp_absent_noop (store : Store) (tripId : Nat) (userId : String)
    (d : TripDoc) (hd : findById store tripId = some d)
    (hnot : userId ∉ d.users) :
    ∃ st', unrsvpTrips store tripId userId = .ok st' ∧
      findById st' tripId = some d := by
  have hfil : d.users.filter (fun x => x ≠ userId) = d.users := by
    apply List.filter_eq_self.mpr
    intro a ha
    simpa using fun hc : a = userId => hnot (hc ▸ ha)
  have hrm : removeAttendee d userId = d := by
    unfold removeAttendee
    rw [hfil]
  refine ⟨storeSet store tripId d, ?_, findById_storeSet_found store tripId d d hd⟩
  simp [unrsvpTrips, hd, handle404, hrm]

theorem unrsvp_absent_noop_witness :
    ∃ st', unrsvpTrips [(1, ⟨[("owner", JValue.vStr "alice")], ["carol"]⟩)] 1 "bob" =
        .ok st' ∧
      findById st' 1 = some ⟨[("owner", JValue.vStr "alice")], ["carol"]⟩ :=
  unrsvp_absent_noop [(1, ⟨[("owner", JValue.vStr "alice")], ["carol"]⟩)] 1 "bob"
    ⟨[("owner", JValue.vStr "alice")], ["carol"]⟩ rfl (by decide)

/-- Claim C8: in a successful update, every field submitted as an empty string
is absent from the merged change-set (its stored value is unchanged), and
every non-blank submitted schema field other than owner is applied; explicit
null and non-string falsy values count as non-blank and are kept. -/
theorem update_blank_dropped_nonblank_applied (store : Store) (tripId : Nat)
    (userId : String) (t : Obj) (uf : Bool) (st' : Store) (d d' : TripDoc)
    (k : String)
    (hnd : (t.map Prod.fst).Nodup)
    (hrun : patchTrips store tripId userId (some t) uf = .ok st')
    (hd : findById store tripId = some d)
    (hd' : findById st' tripId = some d') :
    (getField t k = some (JValue.vStr "") →
      getField d'.fields k = getField d.fields k) ∧
    (∀ v, getField t k = some v → v ≠ JValue.vStr "" → k ∈ scalarSchemaKeys →
      k ≠ "owner" → getField d'.fields k = some v) := by
  by_cases hcond : getField d.fields "owner" = some (JValue.vStr userId)
  · cases uf with
    | true => simp [patchTrips, hd, handle404, requireOwnership, hcond] at hrun
    | false =>
        simp [patchTrips, hd, handle404, requireOwnership, hcond] at hrun
        have hf : findById st' tripId =
            some (updateOne d (removeField (removeBlanks t) "owner")) := by
          rw [← hrun]
          exact findById_storeSet_found store tripId d _ hd
        rw [hd'] at hf
        have hde : d' = updateOne d (removeField (removeBlanks t) "owner") :=
          Option.some_inj.mp hf
        constructor
        · intro hblank
          have h1 : getField (removeBlanks t) k = none :=
            getField_removeBlanks_blank t k hnd hblank
          have h2 : getField (removeField (removeBlanks t) "owner") k = none :=
            getField_filter_none _ (removeBlanks t) k h1
          rw [hde]
          exact getField_updateOne_none d (removeField (removeBlanks t) "owner") k h2
        · intro v hv hvne hk hko
          have h1 : getField (removeBlanks t) k = some v :=
            getField_removeBlanks_some t k v hv hvne
          have h2 : getField (removeField (removeBlanks t) "owner") k = some v := by
            have heq := getField_filterKey (fun s => decide (s ≠ "owner"))
              (removeBlanks t) k (by simpa using hko)
            exact heq.trans h1
          have hnd2 : ((removeField (removeBlanks t) "owner").map Prod.fst).Nodup :=
            keys_nodup_filter (removeBlanks t) _ (keys_nodup_filter t _ hnd)
          rw [hde]
          exact getField_updateOne_some d (removeField (removeBlanks t) "owner") k v
            hnd2 h2 hk
  · simp [patchTrips, hd, handle404, requireOwnership, hcond] at hrun

theorem update_blank_dropped_nonblank_applied_witness :
    (getField [("city", JValue.vStr ""), ("description", JValue.vStr "Nice")]
        "description" = some (JValue.vStr "") →
      getField (⟨[("owner", JValue.vStr "alice"), ("city", JValue.vStr "Rome"),
          ("description", JValue.vStr "Nice")], []⟩ : TripDoc).fields "description" =
        getField (⟨[("owner", JValue.vStr "alice"), ("city", JValue.vStr "Rome")],
          []⟩ : TripDoc).fields "description") ∧
    (∀ v, getField [("city", JValue.vStr ""), ("description", JValue.vStr "Nice")]
        "description" = some v → v ≠ JValue.vStr "" →
      "description" ∈ scalarSchemaKeys → "description" ≠ "owner" →
      getField (⟨[("owner", JValue.vStr "alice"), ("city", JValue.vStr "Rome"),
          ("description", JValue.vStr "Nice")], []⟩ : TripDoc).fields "description" =
        some v) :=
  update_blank_dropped_nonblank_applied
    [(1, ⟨[("owner", JValue.vStr "alice"), ("city", JValue.vStr "Rome")], []⟩)] 1
    "alice" [("city", JValue.vStr ""), ("description", JValue.vStr "Nice")] false
    [(1, ⟨[("owner", JValue.vStr "alice"), ("city", JValue.vStr "Rome"),
      ("description", JValue.vStr "Nice")], []⟩)]
    ⟨[("owner", JValue.vStr "alice"), ("city", JValue.vStr "Rome")], []⟩
    ⟨[("owner", JValue.vStr "alice"), ("city", JValue.vStr "Rome"),
      ("description", JValue.vStr "Nice")], []⟩
    "description" (by decide) rfl rfl rfl

end TripTracker
